import Mathlib

/-!
Shallow embedding of the AssetTrack in-memory store
(`internal/store/memory.go`) and its REST API handlers
(`internal/api/handlers.go`).

Modelling conventions:
* Go `map[string]T` becomes an association list `List (String × T)`
  with first-match lookup, replace-or-append insertion and key erasure.
* Go `time.Time` values produced by `time.Now()` become an explicit
  `now : Nat` parameter threaded through the mutating operations.
* Go `float64` monetary fields become `ℚ` (all values occurring in the
  repository are exact decimals, no float arithmetic is performed on them).
* Go `(value, error)` returns become `Except String value`; methods that
  return a bare `error` return an `Option String` (`none` = nil error)
  next to the updated store and the (possibly mutated) argument record.
* The Go `int` counter `nextID` becomes a `Nat`; integer overflow is not
  modelled.
-/

/-! ## Data model (from `internal/models/models.go`) -/

structure Asset where
  id : String
  tag : String
  name : String
  category : String
  status : String
  location : String
  department : String
  assignedTo : String
  purchaseDate : String
  purchaseCost : ℚ
  currentValue : ℚ
  vendor : String
  serialNumber : String
  model : String
  warranty : String
  notes : String
  createdAt : Nat
  updatedAt : Nat
  deriving DecidableEq

structure MaintenanceRecord where
  id : String
  assetID : String
  date : String
  type : String
  description : String
  cost : ℚ
  technician : String
  status : String
  createdAt : Nat
  deriving DecidableEq

structure AuditEntry where
  id : String
  assetID : String
  timestamp : Nat
  user : String
  action : String
  details : String
  deriving DecidableEq

structure AssetFilter where
  status : String
  category : String
  department : String
  search : String
  limit : Int
  offset : Int
  deriving DecidableEq

/-! ## Association-list model of Go string-keyed maps -/

def mapLookup {α : Type} (m : List (String × α)) (k : String) : Option α :=
  match m with
  | [] => none
  | (k', v) :: rest => if k' = k then some v else mapLookup rest k

def mapLookupD {α : Type} (m : List (String × α)) (k : String) (d : α) : α :=
  (mapLookup m k).getD d

def mapInsert {α : Type} (m : List (String × α)) (k : String) (v : α) :
    List (String × α) :=
  match m with
  | [] => [(k, v)]
  | (k', v') :: rest =>
      if k' = k then (k, v) :: rest else (k', v') :: mapInsert rest k v

def mapErase {α : Type} (m : List (String × α)) (k : String) :
    List (String × α) :=
  m.filter fun p => p.1 ≠ k

def mapValues {α : Type} (m : List (String × α)) : List α :=
  m.map Prod.snd

/-! ## Decimal formatting (Go `fmt.Sprintf("%03d", n)`) -/

def digitToChar (d : Nat) : Char := Char.ofNat (48 + d)

def toDecAux : Nat → Nat → List Char
  | 0, _ => []
  | fuel+1, n =>
      if n < 10 then [digitToChar n]
      else toDecAux fuel (n / 10) ++ [digitToChar (n % 10)]

/-- Decimal digit string of `n`, zero-padded on the left to width 3,
mirroring Go `fmt.Sprintf("%03d", n)`. -/
def pad3 (n : Nat) : String :=
  ⟨List.replicate (3 - (toDecAux (n+1) n).length) '0' ++ toDecAux (n+1) n⟩

/-! ## The store (from `internal/store/memory.go`) -/

structure MemoryStore where
  assets : List (String × Asset)
  maintenance : List (String × List MaintenanceRecord)
  audit : List (String × List AuditEntry)
  nextID : Nat
  deriving DecidableEq

def sampleAssets : List Asset :=
  [⟨"A001", "IT-LAP-001", "MacBook Pro 16\"", "Laptops", "active", "HQ Floor 3", "Engineering", "John Smith", "2024-01-15", 2499, 2100, "Apple Inc.", "C02XG123HKGY", "MacBook Pro 16 M3", "2027-01-15", "Primary development machine", 0, 0⟩,
   ⟨"A002", "IT-LAP-002", "ThinkPad X1 Carbon", "Laptops", "active", "HQ Floor 2", "Sales", "Jane Doe", "2024-02-20", 1899, 1650, "Lenovo", "PF3ABCD1", "X1 Carbon Gen 11", "2027-02-20", "", 0, 0⟩,
   ⟨"A003", "IT-MON-001", "Dell U2723QE", "Monitors", "active", "HQ Floor 3", "Engineering", "John Smith", "2024-01-15", 799, 700, "Dell", "CN0M2K831234", "UltraSharp 27 4K", "2027-01-15", "4K USB-C Hub Monitor", 0, 0⟩,
   ⟨"A004", "IT-SRV-001", "Dell PowerEdge R750", "Servers", "active", "Data Center", "IT Operations", "Unassigned", "2023-06-01", 12500, 10000, "Dell", "SVCTAG001", "PowerEdge R750xs", "2026-06-01", "Primary application server", 0, 0⟩,
   ⟨"A005", "IT-LAP-003", "MacBook Air M2", "Laptops", "maintenance", "IT Storage", "Marketing", "Bob Wilson", "2024-03-10", 1299, 1150, "Apple Inc.", "C02YH456JKLY", "MacBook Air 13 M2", "2027-03-10", "Battery replacement scheduled", 0, 0⟩,
   ⟨"A006", "IT-NET-001", "Cisco Catalyst 9300", "Network", "active", "Server Room A", "IT Operations", "Unassigned", "2023-01-20", 4500, 3800, "Cisco", "FCW2345K001", "C9300-48P", "2026-01-20", "48-port PoE+ switch", 0, 0⟩,
   ⟨"A007", "IT-PRN-001", "HP LaserJet Pro", "Printers", "active", "HQ Floor 2", "Shared", "Unassigned", "2024-04-05", 549, 500, "HP", "VNB3R12345", "M404dn", "2025-04-05", "Department printer", 0, 0⟩,
   ⟨"A008", "IT-LAP-004", "Dell XPS 15", "Laptops", "retired", "IT Storage", "Finance", "Unassigned", "2021-05-15", 1799, 0, "Dell", "5CG123ABC", "XPS 15 9510", "2024-05-15", "End of life - data wiped", 0, 0⟩,
   ⟨"A009", "IT-MON-002", "LG 34WN80C-B", "Monitors", "active", "HQ Floor 2", "Sales", "Jane Doe", "2024-02-20", 699, 600, "LG", "LG34WN001", "34WN80C-B", "2027-02-20", "Ultrawide monitor", 0, 0⟩,
   ⟨"A010", "IT-LAP-005", "HP EliteBook 840", "Laptops", "active", "HQ Floor 1", "HR", "Alice Brown", "2024-05-01", 1499, 1400, "HP", "5CG456DEF", "EliteBook 840 G9", "2027-05-01", "", 0, 0⟩]

def sampleMaintenanceA001 : List MaintenanceRecord :=
  [⟨"M001", "A001", "2025-01-02", "Scheduled", "Annual checkup and cleaning", 75, "", "completed", 0⟩,
   ⟨"M002", "A001", "2024-09-15", "Repair", "Battery replacement", 199, "", "completed", 0⟩,
   ⟨"M003", "A001", "2024-06-20", "Upgrade", "RAM upgrade to 32GB", 350, "", "completed", 0⟩]

def sampleMaintenanceA005 : List MaintenanceRecord :=
  [⟨"M004", "A005", "2025-01-03", "Repair", "Battery replacement", 189, "", "pending", 0⟩,
   ⟨"M005", "A005", "2024-08-10", "Scheduled", "Annual checkup", 50, "", "completed", 0⟩]

def loadSampleData (s : MemoryStore) (now : Nat) : MemoryStore :=
  let s1 := { s with
    assets := sampleAssets.foldl
      (fun m (a : Asset) => mapInsert m a.id { a with createdAt := now, updatedAt := now })
      s.assets }
  { s1 with
    maintenance :=
      mapInsert (mapInsert s1.maintenance "A001" sampleMaintenanceA001)
        "A005" sampleMaintenanceA005 }

def NewMemoryStore (now : Nat) : MemoryStore :=
  loadSampleData { assets := [], maintenance := [], audit := [], nextID := 100 } now

/-- Substring test, mirroring Go `strings.Contains(s, sub)`. -/
def strContains (s sub : String) : Bool :=
  decide (sub.data <:+: s.data)

/-- The filtering loop of `MemoryStore.ListAssets`, translated clause by
clause from the Go `for`/`continue` loop. -/
def listAssetsLoop (filter : AssetFilter) : List Asset → List Asset
  | [] => []
  | a :: rest =>
      if filter.status ≠ "" ∧ a.status ≠ filter.status then
        listAssetsLoop filter rest
      else if filter.category ≠ "" ∧ a.category ≠ filter.category then
        listAssetsLoop filter rest
      else if filter.department ≠ "" ∧ a.department ≠ filter.department then
        listAssetsLoop filter rest
      else if filter.search ≠ "" ∧ strContains a.name.toLower filter.search.toLower = false then
        listAssetsLoop filter rest
      else a :: listAssetsLoop filter rest

def MemoryStore.ListAssets (s : MemoryStore) (filter : AssetFilter) :
    Except String (List Asset) :=
  Except.ok (listAssetsLoop filter (mapValues s.assets))

def MemoryStore.GetAsset (s : MemoryStore) (id : String) : Except String Asset :=
  match mapLookup s.assets id with
  | none => Except.error ("asset not found: " ++ id)
  | some a => Except.ok a

def MemoryStore.CreateAsset (s : MemoryStore) (asset : Asset) (now : Nat) :
    MemoryStore × Asset × Option String :=
  let idPair : Nat × String :=
    if asset.id = "" then (s.nextID + 1, "A" ++ pad3 (s.nextID + 1))
    else (s.nextID, asset.id)
  let a := { asset with id := idPair.2, createdAt := now, updatedAt := now }
  ({ s with assets := mapInsert s.assets a.id a, nextID := idPair.1 }, a, none)

def MemoryStore.UpdateAsset (s : MemoryStore) (asset : Asset) (now : Nat) :
    MemoryStore × Asset × Option String :=
  match mapLookup s.assets asset.id with
  | none => (s, asset, some ("asset not found: " ++ asset.id))
  | some _ =>
      let a := { asset with updatedAt := now }
      ({ s with assets := mapInsert s.assets asset.id a }, a, none)

def MemoryStore.DeleteAsset (s : MemoryStore) (id : String) :
    MemoryStore × Option String :=
  match mapLookup s.assets id with
  | none => (s, some ("asset not found: " ++ id))
  | some _ => ({ s with assets := mapErase s.assets id }, none)

def MemoryStore.ListMaintenance (s : MemoryStore) (assetID : String) :
    Except String (List MaintenanceRecord) :=
  Except.ok (mapLookupD s.maintenance assetID [])

def MemoryStore.CreateMaintenance (s : MemoryStore) (record : MaintenanceRecord)
    (now : Nat) : MemoryStore × MaintenanceRecord × Option String :=
  let n := s.nextID + 1
  let r := { record with id := "M" ++ pad3 n, createdAt := now }
  ({ s with
      nextID := n,
      maintenance := mapInsert s.maintenance record.assetID
        (mapLookupD s.maintenance record.assetID [] ++ [r]) },
   r, none)

def MemoryStore.CreateAuditEntry (s : MemoryStore) (entry : AuditEntry)
    (now : Nat) : MemoryStore × AuditEntry × Option String :=
  let n := s.nextID + 1
  let e := { entry with id := "AU" ++ pad3 n, timestamp := now }
  ({ s with
      nextID := n,
      audit := mapInsert s.audit entry.assetID
        (mapLookupD s.audit entry.assetID [] ++ [e]) },
   e, none)

/-! ## API handlers (from `internal/api/handlers.go`) -/

inductive ApiPayload where
  | assetItem (a : Asset)
  | assetItems (l : List Asset)
  deriving DecidableEq

/-- The JSON envelope written by the response helpers: `data`, `error`,
and `meta.total`, together with the HTTP status code. -/
structure ApiResponse where
  status : Nat
  data : Option ApiPayload
  error : Option String
  metaTotal : Option Nat
  deriving DecidableEq

def respondJSON (status : Nat) (d : ApiPayload) : ApiResponse :=
  ⟨status, some d, none, none⟩

def respondError (status : Nat) (msg : String) : ApiResponse :=
  ⟨status, none, some msg, none⟩

def respondList (d : ApiPayload) (total : Nat) : ApiResponse :=
  ⟨200, some d, none, some total⟩

/-- The `status`, `category`, `department` and `search` query parameters of
a `GET /api/assets` request (Go `Query().Get` yields `""` when absent). -/
structure ListAssetsQuery where
  status : String
  category : String
  department : String
  search : String

def Handler.ListAssets (s : MemoryStore) (q : ListAssetsQuery) : ApiResponse :=
  let filter : AssetFilter :=
    { status := q.status, category := q.category, department := q.department,
      search := q.search, limit := 0, offset := 0 }
  match s.ListAssets filter with
  | Except.error _ => respondError 500 "Failed to list assets"
  | Except.ok assets => respondList (ApiPayload.assetItems assets) assets.length

def Handler.GetAsset (s : MemoryStore) (id : String) : ApiResponse :=
  match s.GetAsset id with
  | Except.error _ => respondError 404 "Asset not found"
  | Except.ok a => respondJSON 200 (ApiPayload.assetItem a)

/-! ## Specification-side filter predicate

`matchesFilterSpec` follows the words of the specification: equality on
`Status`, `Category` and `Department` whenever the filter field is
non-empty, and a case-insensitive substring match of `Search` against the
asset name. It is compared against the source-derived `listAssetsLoop`. -/

def matchesFilterSpec (f : AssetFilter) (a : Asset) : Bool :=
  (f.status == "" || a.status == f.status) &&
  (f.category == "" || a.category == f.category) &&
  (f.department == "" || a.department == f.department) &&
  (f.search == "" || strContains a.name.toLower f.search.toLower)

/-! ## Operation traces for the ID-counter claims -/

inductive StoreOp where
  | createAssetOp (a : Asset) (now : Nat)
  | updateAssetOp (a : Asset) (now : Nat)
  | deleteAssetOp (id : String)
  | createMaintenanceOp (r : MaintenanceRecord) (now : Nat)
  | createAuditEntryOp (e : AuditEntry) (now : Nat)

/-- Whether the operation makes the store generate a fresh record ID. -/
def opGeneratesID : StoreOp → Bool
  | .createAssetOp a _ => a.id == ""
  | .updateAssetOp _ _ => false
  | .deleteAssetOp _ => false
  | .createMaintenanceOp _ _ => true
  | .createAuditEntryOp _ _ => true

/-- Apply one mutating store operation; the second component is the
freshly generated record ID, if the operation generated one. -/
def applyOp (s : MemoryStore) : StoreOp → MemoryStore × Option String
  | .createAssetOp a now =>
      ((s.CreateAsset a now).1,
       if a.id = "" then some (s.CreateAsset a now).2.1.id else none)
  | .updateAssetOp a now => ((s.UpdateAsset a now).1, none)
  | .deleteAssetOp id => ((s.DeleteAsset id).1, none)
  | .createMaintenanceOp r now =>
      ((s.CreateMaintenance r now).1, some (s.CreateMaintenance r now).2.1.id)
  | .createAuditEntryOp e now =>
      ((s.CreateAuditEntry e now).1, some (s.CreateAuditEntry e now).2.1.id)

/-- Run a sequence of operations, collecting every generated ID. -/
def runOps : MemoryStore → List StoreOp → MemoryStore × List String
  | s, [] => (s, [])
  | s, op :: rest =>
      let step := applyOp s op
      let tail := runOps step.1 rest
      (tail.1, step.2.toList ++ tail.2)

/-! ### Decoding generated IDs -/

inductive IDKind where
  | assetKind
  | maintKind
  | auditKind
  deriving DecidableEq

def kindTag : IDKind → String
  | .assetKind => "A"
  | .maintKind => "M"
  | .auditKind => "AU"

/-- The shape of every generated record ID: kind tag followed by the
zero-padded decimal value of the counter at generation time. -/
def renderID (k : IDKind) (c : Nat) : String := kindTag k ++ pad3 c

/-- Read a decimal digit list (most significant first) back as a number. -/
def parseDec (cs : List Char) : Nat :=
  cs.foldl (fun acc c => 10 * acc + (c.toNat - 48)) 0

/-- Extract the counter value embedded in a generated ID. -/
def counterOf (str : String) : Nat :=
  parseDec (str.data.filter Char.isDigit)

/-- Concrete records used to instantiate universally quantified theorems. -/
def blankMaintenanceRecord : MaintenanceRecord :=
  ⟨"", "A001", "2025-01-05", "Repair", "Screen swap", 10, "", "pending", 0⟩

def blankAuditEntry : AuditEntry :=
  ⟨"", "A001", 0, "admin", "update", "changed status"⟩

def blankAsset : Asset :=
  ⟨"", "IT-LAP-099", "Test Laptop", "Laptops", "active", "HQ", "Engineering",
   "Unassigned", "2025-01-01", 1000, 900, "Dell", "SN123", "Latitude",
   "2028-01-01", "", 0, 0⟩

/-! ## Lemmas about the association-list map operations -/

theorem mapLookup_insert_self {α : Type} (m : List (String × α)) (k : String) (v : α) :
    mapLookup (mapInsert m k v) k = some v := by
  induction m with
  | nil => simp [mapInsert, mapLookup]
  | cons p rest ih =>
    obtain ⟨k', v'⟩ := p
    by_cases h : k' = k
    · simp [mapInsert, h, mapLookup]
    · simp [mapInsert, h, mapLookup, ih]

theorem mapLookup_insert_ne {α : Type} (m : List (String × α)) (k : String) (v : α)
    (j : String) (h : j ≠ k) :
    mapLookup (mapInsert m k v) j = mapLookup m j := by
  induction m with
  | nil => simp [mapInsert, mapLookup, Ne.symm h]
  | cons p rest ih =>
    obtain ⟨k', v'⟩ := p
    by_cases hk : k' = k
    · subst hk
      simp [mapInsert, mapLookup, Ne.symm h]
    · simp [mapInsert, hk, mapLookup, ih]

theorem mapLookup_erase_self {α : Type} (m : List (String × α)) (k : String) :
    mapLookup (mapErase m k) k = none := by
  induction m with
  | nil => simp [mapErase, mapLookup]
  | cons p rest ih =>
    obtain ⟨k', v'⟩ := p
    by_cases h : k' = k
    · simpa [mapErase, h] using ih
    · simpa [mapErase, h, mapLookup] using ih

theorem mapLookup_erase_ne {α : Type} (m : List (String × α)) (k j : String)
    (h : j ≠ k) :
    mapLookup (mapErase m k) j = mapLookup m j := by
  induction m with
  | nil => simp [mapErase, mapLookup]
  | cons p rest ih =>
    obtain ⟨k', v'⟩ := p
    by_cases hk : k' = k
    · subst hk
      simpa [mapErase, mapLookup, Ne.symm h] using ih
    · by_cases hj : k' = j
      · simp [mapErase, mapLookup, hk, hj, h]
      · simpa [mapErase, mapLookup, hk, hj] using ih

/-! ## The filtering loop agrees with the specification's predicate -/

theorem listAssetsLoop_eq_filter (f : AssetFilter) (l : List Asset) :
    listAssetsLoop f l = l.filter (fun a => matchesFilterSpec f a) := by
  induction l with
  | nil => rfl
  | cons a rest ih =>
    simp only [listAssetsLoop, List.filter_cons]
    by_cases h1 : f.status ≠ "" ∧ a.status ≠ f.status
    · have hm : matchesFilterSpec f a = false := by
        simp only [matchesFilterSpec, Bool.and_eq_false_iff, Bool.or_eq_false_iff,
          beq_eq_false_iff_ne]
        exact Or.inl (Or.inl (Or.inl ⟨h1.1, h1.2⟩))
      rw [if_pos h1, hm, ih]
      simp
    · rw [if_neg h1]
      by_cases h2 : f.category ≠ "" ∧ a.category ≠ f.category
      · have hm : matchesFilterSpec f a = false := by
          simp only [matchesFilterSpec, Bool.and_eq_false_iff, Bool.or_eq_false_iff,
            beq_eq_false_iff_ne]
          exact Or.inl (Or.inl (Or.inr ⟨h2.1, h2.2⟩))
        rw [if_pos h2, hm, ih]
        simp
      · rw [if_neg h2]
        by_cases h3 : f.department ≠ "" ∧ a.department ≠ f.department
        · have hm : matchesFilterSpec f a = false := by
            simp only [matchesFilterSpec, Bool.and_eq_false_iff, Bool.or_eq_false_iff,
              beq_eq_false_iff_ne]
            exact Or.inl (Or.inr ⟨h3.1, h3.2⟩)
          rw [if_pos h3, hm, ih]
          simp
        · rw [if_neg h3]
          by_cases h4 : f.search ≠ "" ∧ strContains a.name.toLower f.search.toLower = false
          · have hm : matchesFilterSpec f a = false := by
              simp only [matchesFilterSpec, Bool.and_eq_false_iff, Bool.or_eq_false_iff,
                beq_eq_false_iff_ne]
              exact Or.inr ⟨h4.1, h4.2⟩
            rw [if_pos h4, hm, ih]
            simp
          · have hm : matchesFilterSpec f a = true := by
              simp only [not_and, ne_eq, not_not, Bool.not_eq_false] at h1 h2 h3 h4
              simp only [matchesFilterSpec, Bool.and_eq_true, Bool.or_eq_true, beq_iff_eq]
              refine ⟨⟨⟨?_, ?_⟩, ?_⟩, ?_⟩
              · by_cases hc : f.status = ""
                · exact Or.inl hc
                · exact Or.inr (h1 hc)
              · by_cases hc : f.category = ""
                · exact Or.inl hc
                · exact Or.inr (h2 hc)
              · by_cases hc : f.department = ""
                · exact Or.inl hc
                · exact Or.inr (h3 hc)
              · by_cases hc : f.search = ""
                · exact Or.inl hc
                · exact Or.inr (h4 hc)
            rw [if_neg h4, hm, ih]
            simp

theorem mem_listAssetsLoop (f : AssetFilter) (l : List Asset) (a : Asset) :
    a ∈ listAssetsLoop f l ↔ a ∈ l ∧ matchesFilterSpec f a = true := by
  rw [listAssetsLoop_eq_filter]
  simp [List.mem_filter]

/-- C1: `MemoryStore.ListAssets` returns, without error, exactly the stored
assets that satisfy every non-empty filter field — equality on status,
category and department, case-insensitive substring match of the search
term against the asset name — and the empty filter returns all stored
assets. -/
theorem ListAssets_filters_exactly (s : MemoryStore) (f : AssetFilter) :
    ∃ l, s.ListAssets f = Except.ok l ∧
      (∀ a, a ∈ l ↔ a ∈ mapValues s.assets ∧ matchesFilterSpec f a = true) ∧
      (f.status = "" ∧ f.category = "" ∧ f.department = "" ∧ f.search = "" →
        l = mapValues s.assets) := by
  refine ⟨listAssetsLoop f (mapValues s.assets), rfl, ?_, ?_⟩
  · intro a
    exact mem_listAssetsLoop f (mapValues s.assets) a
  · rintro ⟨h1, h2, h3, h4⟩
    rw [listAssetsLoop_eq_filter]
    refine List.filter_eq_self.mpr ?_
    intro a _
    simp [matchesFilterSpec, h1, h2, h3, h4]

/-- Witness for C1: the theorem applied to the seeded store and the empty
filter. -/
theorem ListAssets_filters_exactly_witness :
    ∃ l, (NewMemoryStore 0).ListAssets ⟨"", "", "", "", 0, 0⟩ = Except.ok l ∧
      (∀ a, a ∈ l ↔ a ∈ mapValues (NewMemoryStore 0).assets ∧
        matchesFilterSpec ⟨"", "", "", "", 0, 0⟩ a = true) ∧
      (("" : String) = "" ∧ ("" : String) = "" ∧ ("" : String) = "" ∧ ("" : String) = "" →
        l = mapValues (NewMemoryStore 0).assets) :=
  ListAssets_filters_exactly (NewMemoryStore 0) ⟨"", "", "", "", 0, 0⟩

/-- C2: `MemoryStore.GetAsset` errs exactly when the id is absent, returns
the stored asset otherwise, and the `GET /api/assets/{id}` handler answers
404 with an error body exactly when the lookup fails and 200 with the
asset otherwise. -/
theorem GetAsset_found_iff (s : MemoryStore) (id : String) :
    ((∃ e, s.GetAsset id = Except.error e) ↔ mapLookup s.assets id = none) ∧
    (∀ a, mapLookup s.assets id = some a → s.GetAsset id = Except.ok a) ∧
    ((∃ e, s.GetAsset id = Except.error e) →
      Handler.GetAsset s id = respondError 404 "Asset not found") ∧
    (∀ a, s.GetAsset id = Except.ok a →
      Handler.GetAsset s id = respondJSON 200 (ApiPayload.assetItem a)) := by
  cases h : mapLookup s.assets id <;>
    simp [MemoryStore.GetAsset, Handler.GetAsset, h]

/-- Witness for C2: looking up an id that is not seeded yields the 404
error response. -/
theorem GetAsset_found_iff_witness :
    Handler.GetAsset (NewMemoryStore 0) "A404" = respondError 404 "Asset not found" :=
  (GetAsset_found_iff (NewMemoryStore 0) "A404").2.2.1 ⟨"asset not found: A404", by rfl⟩

/-- C3: `MemoryStore.UpdateAsset` errs exactly when the asset's id is
absent, leaves the store untouched on error, and on success replaces
exactly that asset with the argument (UpdatedAt refreshed), leaving every
other asset and the other tables unchanged. -/
theorem UpdateAsset_not_found_iff (s : MemoryStore) (asset : Asset) (now : Nat) :
    ((s.UpdateAsset asset now).2.2.isSome ↔ mapLookup s.assets asset.id = none) ∧
    ((s.UpdateAsset asset now).2.2.isSome → (s.UpdateAsset asset now).1 = s) ∧
    ((s.UpdateAsset asset now).2.2 = none →
      mapLookup (s.UpdateAsset asset now).1.assets asset.id =
        some { asset with updatedAt := now } ∧
      (∀ j, j ≠ asset.id →
        mapLookup (s.UpdateAsset asset now).1.assets j = mapLookup s.assets j) ∧
      (s.UpdateAsset asset now).1.maintenance = s.maintenance ∧
      (s.UpdateAsset asset now).1.audit = s.audit ∧
      (s.UpdateAsset asset now).1.nextID = s.nextID) := by
  cases h : mapLookup s.assets asset.id with
  | none =>
      refine ⟨by simp [MemoryStore.UpdateAsset, h],
              by simp [MemoryStore.UpdateAsset, h], ?_⟩
      intro hn
      simp [MemoryStore.UpdateAsset, h] at hn
  | some old =>
      refine ⟨by simp [MemoryStore.UpdateAsset, h],
              by simp [MemoryStore.UpdateAsset, h], ?_⟩
      intro _
      refine ⟨?_, ?_, ?_, ?_, ?_⟩
      · simp [MemoryStore.UpdateAsset, h, mapLookup_insert_self]
      · intro j hj
        simp [MemoryStore.UpdateAsset, h, mapLookup_insert_ne _ _ _ _ hj]
      · simp [MemoryStore.UpdateAsset, h]
      · simp [MemoryStore.UpdateAsset, h]
      · simp [MemoryStore.UpdateAsset, h]

/-- Witness for C3: updating seeded asset `A001` stores the argument with
its `updatedAt` refreshed. -/
theorem UpdateAsset_not_found_iff_witness :
    mapLookup ((NewMemoryStore 0).UpdateAsset { blankAsset with id := "A001" } 5).1.assets
        "A001" = some { blankAsset with id := "A001", updatedAt := 5 } :=
  ((UpdateAsset_not_found_iff (NewMemoryStore 0) { blankAsset with id := "A001" } 5).2.2
    (by rfl)).1

/-- C4: `MemoryStore.DeleteAsset` errs exactly when the id is absent,
leaving the store unchanged; on success it removes exactly that asset
while all other assets, every maintenance record and every audit entry
(including those keyed by the deleted id) remain unchanged. -/
theorem DeleteAsset_removes_only_target (s : MemoryStore) (id : String) :
    ((s.DeleteAsset id).2.isSome ↔ mapLookup s.assets id = none) ∧
    ((s.DeleteAsset id).2.isSome → (s.DeleteAsset id).1 = s) ∧
    ((s.DeleteAsset id).2 = none →
      mapLookup (s.DeleteAsset id).1.assets id = none ∧
      (∀ j, j ≠ id → mapLookup (s.DeleteAsset id).1.assets j = mapLookup s.assets j) ∧
      (s.DeleteAsset id).1.maintenance = s.maintenance ∧
      (s.DeleteAsset id).1.audit = s.audit ∧
      mapLookup (s.DeleteAsset id).1.maintenance id = mapLookup s.maintenance id ∧
      mapLookup (s.DeleteAsset id).1.audit id = mapLookup s.audit id ∧
      (s.DeleteAsset id).1.nextID = s.nextID) := by
  cases h : mapLookup s.assets id with
  | none =>
      refine ⟨by simp [MemoryStore.DeleteAsset, h],
              by simp [MemoryStore.DeleteAsset, h], ?_⟩
      intro hn
      simp [MemoryStore.DeleteAsset, h] at hn
  | some old =>
      refine ⟨by simp [MemoryStore.DeleteAsset, h],
              by simp [MemoryStore.DeleteAsset, h], ?_⟩
      intro _
      refine ⟨?_, ?_, ?_, ?_, ?_, ?_, ?_⟩
      · simp [MemoryStore.DeleteAsset, h, mapLookup_erase_self]
      · intro j hj
        simp [MemoryStore.DeleteAsset, h, mapLookup_erase_ne _ _ _ hj]
      · simp [MemoryStore.DeleteAsset, h]
      · simp [MemoryStore.DeleteAsset, h]
      · simp [MemoryStore.DeleteAsset, h]
      · simp [MemoryStore.DeleteAsset, h]
      · simp [MemoryStore.DeleteAsset, h]

/-- Witness for C4: deleting seeded asset `A001` removes it while keeping
its maintenance records. -/
theorem DeleteAsset_removes_only_target_witness :
    mapLookup ((NewMemoryStore 0).DeleteAsset "A001").1.assets "A001" = none ∧
    mapLookup ((NewMemoryStore 0).DeleteAsset "A001").1.maintenance "A001" =
      mapLookup (NewMemoryStore 0).maintenance "A001" := by
  have h := (DeleteAsset_removes_only_target (NewMemoryStore 0) "A001").2.2 (by rfl)
  exact ⟨h.1, h.2.2.2.2.1⟩

/-- C6: the `GET /api/assets` handler builds the filter from the four
query parameters and answers 200 with the filtered list as `data` and its
length as `meta.total`. -/
theorem HandlerListAssets_envelope (s : MemoryStore) (q : ListAssetsQuery) :
    ∃ l, s.ListAssets ⟨q.status, q.category, q.department, q.search, 0, 0⟩ =
        Except.ok l ∧
      Handler.ListAssets s q =
        { status := 200, data := some (ApiPayload.assetItems l), error := none,
          metaTotal := some l.length } ∧
      (∀ a, a ∈ l ↔ a ∈ mapValues s.assets ∧
        matchesFilterSpec ⟨q.status, q.category, q.department, q.search, 0, 0⟩ a = true) :=
  ⟨listAssetsLoop ⟨q.status, q.category, q.department, q.search, 0, 0⟩ (mapValues s.assets),
   rfl, rfl, fun a => mem_listAssetsLoop _ (mapValues s.assets) a⟩

/-- Witness for C6: the theorem applied to the seeded store and a concrete
query. -/
theorem HandlerListAssets_envelope_witness :
    ∃ l, (NewMemoryStore 0).ListAssets ⟨"active", "Laptops", "", "", 0, 0⟩ =
        Except.ok l ∧
      Handler.ListAssets (NewMemoryStore 0) ⟨"active", "Laptops", "", ""⟩ =
        { status := 200, data := some (ApiPayload.assetItems l), error := none,
          metaTotal := some l.length } ∧
      (∀ a, a ∈ l ↔ a ∈ mapValues (NewMemoryStore 0).assets ∧
        matchesFilterSpec ⟨"active", "Laptops", "", "", 0, 0⟩ a = true) :=
  HandlerListAssets_envelope (NewMemoryStore 0) ⟨"active", "Laptops", "", ""⟩

/-- C8: `MemoryStore.ListAssets` ignores the `Limit` and `Offset` fields of
the filter: the result is the same for all their values, so no pagination
is applied. -/
theorem ListAssets_ignores_pagination (s : MemoryStore) (f : AssetFilter)
    (l1 o1 l2 o2 : Int) :
    s.ListAssets { f with limit := l1, offset := o1 } =
      s.ListAssets { f with limit := l2, offset := o2 } := by
  unfold MemoryStore.ListAssets
  rw [listAssetsLoop_eq_filter, listAssetsLoop_eq_filter]
  rfl

/-- C9: `MemoryStore.CreateAsset` always succeeds: an empty incoming id is
replaced by `A<counter>` from the incremented shared counter, and a
non-empty id that is already stored is silently overwritten. -/
theorem CreateAsset_never_fails (s : MemoryStore) (asset : Asset) (now : Nat) :
    ((s.CreateAsset asset now).2.2 = none) ∧
    (asset.id = "" →
      (s.CreateAsset asset now).2.1.id = "A" ++ pad3 (s.nextID + 1) ∧
      (s.CreateAsset asset now).1.nextID = s.nextID + 1) ∧
    (asset.id ≠ "" → ∀ old, mapLookup s.assets asset.id = some old →
      (s.CreateAsset asset now).1.nextID = s.nextID ∧
      mapLookup (s.CreateAsset asset now).1.assets asset.id =
        some { asset with createdAt := now, updatedAt := now }) := by
  refine ⟨rfl, ?_, ?_⟩
  · intro h
    simp [MemoryStore.CreateAsset, h]
  · intro h old hold
    constructor
    · simp [MemoryStore.CreateAsset, h]
    · simp [MemoryStore.CreateAsset, h, mapLookup_insert_self]

/-- Witness for C9: creating an asset with an empty id on the seeded store
assigns `A101` and bumps the counter to 101. -/
theorem CreateAsset_never_fails_witness :
    ((NewMemoryStore 0).CreateAsset blankAsset 7).2.1.id = "A" ++ pad3 101 ∧
    ((NewMemoryStore 0).CreateAsset blankAsset 7).1.nextID = 101 :=
  (CreateAsset_never_fails (NewMemoryStore 0) blankAsset 7).2.1 rfl

/-- C5: a freshly created store holds exactly the ten sample assets
`A001`–`A010`, three maintenance records for `A001`, two for `A005` and
none for any other asset, no audit entries, and the ID counter at 100. -/
theorem NewMemoryStore_seed (now : Nat) :
    ((NewMemoryStore now).assets.map Prod.fst =
      ["A001", "A002", "A003", "A004", "A005", "A006", "A007", "A008", "A009", "A010"]) ∧
    ((NewMemoryStore now).assets.map Prod.snd =
      sampleAssets.map (fun a => { a with createdAt := now, updatedAt := now })) ∧
    mapLookup (NewMemoryStore now).maintenance "A001" = some sampleMaintenanceA001 ∧
    sampleMaintenanceA001.length = 3 ∧
    mapLookup (NewMemoryStore now).maintenance "A005" = some sampleMaintenanceA005 ∧
    sampleMaintenanceA005.length = 2 ∧
    (∀ id, id ≠ "A001" → id ≠ "A005" →
      mapLookup (NewMemoryStore now).maintenance id = none) ∧
    (NewMemoryStore now).audit = [] ∧
    (NewMemoryStore now).nextID = 100 := by
  refine ⟨rfl, rfl, rfl, rfl, rfl, rfl, ?_, rfl, rfl⟩
  intro id h1 h5
  have e : (NewMemoryStore now).maintenance =
      [("A001", sampleMaintenanceA001), ("A005", sampleMaintenanceA005)] := rfl
  rw [e]
  simp [mapLookup, Ne.symm h1, Ne.symm h5]

/-- Witness for C5: no maintenance records are seeded for `A002`. -/
theorem NewMemoryStore_seed_witness :
    mapLookup (NewMemoryStore 3).maintenance "A002" = none :=
  (NewMemoryStore_seed 3).2.2.2.2.2.2.1 "A002" (by decide) (by decide)

/-! ## Decoding lemmas for generated IDs -/

theorem digitToChar_toNat (d : Nat) (h : d < 10) : (digitToChar d).toNat = 48 + d := by
  interval_cases d <;> rfl

theorem digitToChar_isDigit (d : Nat) (h : d < 10) : (digitToChar d).isDigit = true := by
  interval_cases d <;> rfl

theorem parseDec_append (xs : List Char) (c : Char) :
    parseDec (xs ++ [c]) = 10 * parseDec xs + (c.toNat - 48) := by
  simp [parseDec, List.foldl_append]

theorem parseDec_toDecAux (fuel n : Nat) (h : n < fuel) :
    parseDec (toDecAux fuel n) = n := by
  induction fuel generalizing n with
  | zero => omega
  | succ fuel ih =>
    by_cases h10 : n < 10
    · rw [toDecAux, if_pos h10]
      show 10 * 0 + ((digitToChar n).toNat - 48) = n
      rw [digitToChar_toNat n h10]
      omega
    · have h0 : 0 < n := by omega
      have hdiv : n / 10 < fuel :=
        lt_of_lt_of_le (Nat.div_lt_self h0 (by norm_num)) (by omega)
      rw [toDecAux, if_neg h10, parseDec_append, ih _ hdiv,
        digitToChar_toNat _ (Nat.mod_lt _ (by norm_num))]
      omega

theorem toDecAux_digits (fuel n : Nat) :
    ∀ c ∈ toDecAux fuel n, c.isDigit = true := by
  induction fuel generalizing n with
  | zero => simp [toDecAux]
  | succ fuel ih =>
    by_cases h10 : n < 10
    · intro c hc
      rw [toDecAux, if_pos h10] at hc
      simp at hc
      subst hc
      exact digitToChar_isDigit n h10
    · intro c hc
      rw [toDecAux, if_neg h10] at hc
      rcases List.mem_append.mp hc with h | h
      · exact ih _ c h
      · simp at h
        subst h
        exact digitToChar_isDigit _ (Nat.mod_lt _ (by norm_num))

theorem parseDec_zeros (k : Nat) (cs : List Char) :
    parseDec (List.replicate k '0' ++ cs) = parseDec cs := by
  induction k with
  | zero => rfl
  | succ k ih =>
    have h0 : 10 * 0 + ('0'.toNat - 48) = 0 := rfl
    simpa [parseDec, List.replicate_succ, h0] using ih

theorem pad3_digits (n : Nat) : ∀ c ∈ (pad3 n).data, c.isDigit = true := by
  intro c hc
  simp only [pad3] at hc
  rcases List.mem_append.mp hc with h | h
  · have he := List.eq_of_mem_replicate h
    subst he
    rfl
  · exact toDecAux_digits _ _ c h

theorem parseDec_pad3 (n : Nat) : parseDec (pad3 n).data = n := by
  simp only [pad3]
  rw [parseDec_zeros]
  exact parseDec_toDecAux _ _ (Nat.lt_succ_self n)

theorem counterOf_renderID (k : IDKind) (c : Nat) :
    counterOf (renderID k c) = c := by
  have hdata : (renderID k c).data = (kindTag k).data ++ (pad3 c).data := by
    cases k <;> rfl
  unfold counterOf
  rw [hdata, List.filter_append]
  have h1 : ((kindTag k).data.filter Char.isDigit) = [] := by cases k <;> rfl
  have h2 : ((pad3 c).data.filter Char.isDigit) = (pad3 c).data :=
    List.filter_eq_self.mpr (fun a ha => pad3_digits c a ha)
  rw [h1, h2, List.nil_append]
  exact parseDec_pad3 c

theorem renderID_counter_injective {k k' : IDKind} {c c' : Nat}
    (h : renderID k c = renderID k' c') : c = c' := by
  have hco := congrArg counterOf h
  rwa [counterOf_renderID, counterOf_renderID] at hco

/-! ## Counter behaviour along operation traces -/

theorem applyOp_shape (s : MemoryStore) (op : StoreOp) :
    ((applyOp s op).2 = none ∧ (applyOp s op).1.nextID = s.nextID) ∨
    (∃ k, (applyOp s op).2 = some (renderID k (s.nextID + 1)) ∧
      (applyOp s op).1.nextID = s.nextID + 1) := by
  cases op with
  | createAssetOp a now =>
      by_cases h : a.id = ""
      · right
        exact ⟨IDKind.assetKind,
          by simp [applyOp, MemoryStore.CreateAsset, h, renderID, kindTag],
          by simp [applyOp, MemoryStore.CreateAsset, h]⟩
      · left
        exact ⟨by simp [applyOp, h], by simp [applyOp, MemoryStore.CreateAsset, h]⟩
  | updateAssetOp a now =>
      left
      cases h : mapLookup s.assets a.id <;>
        simp [applyOp, MemoryStore.UpdateAsset, h]
  | deleteAssetOp id =>
      left
      cases h : mapLookup s.assets id <;>
        simp [applyOp, MemoryStore.DeleteAsset, h]
  | createMaintenanceOp r now =>
      right
      exact ⟨IDKind.maintKind,
        by simp [applyOp, MemoryStore.CreateMaintenance, renderID, kindTag], rfl⟩
  | createAuditEntryOp e now =>
      right
      exact ⟨IDKind.auditKind,
        by simp [applyOp, MemoryStore.CreateAuditEntry, renderID, kindTag], rfl⟩

theorem runOps_ids (ops : List StoreOp) : ∀ s : MemoryStore,
    s.nextID ≤ (runOps s ops).1.nextID ∧
    (∀ id ∈ (runOps s ops).2, ∃ k c, id = renderID k c ∧
      s.nextID < c ∧ c ≤ (runOps s ops).1.nextID) ∧
    (runOps s ops).2.Nodup := by
  induction ops with
  | nil =>
      intro s
      simp [runOps]
  | cons op rest ih =>
    intro s
    have hrun1 : (runOps s (op :: rest)).1 = (runOps (applyOp s op).1 rest).1 := rfl
    have hrun2 : (runOps s (op :: rest)).2 =
        (applyOp s op).2.toList ++ (runOps (applyOp s op).1 rest).2 := rfl
    obtain ⟨hmono, hmem, hnodup⟩ := ih (applyOp s op).1
    rcases applyOp_shape s op with ⟨hgid, hnext⟩ | ⟨k, hgid, hnext⟩
    · rw [hnext] at hmono hmem
      refine ⟨?_, ?_, ?_⟩
      · rw [hrun1]
        exact hmono
      · intro id hid
        rw [hrun2, hgid] at hid
        simp only [Option.toList_none, List.nil_append] at hid
        rw [hrun1]
        exact hmem id hid
      · rw [hrun2, hgid]
        simpa using hnodup
    · refine ⟨?_, ?_, ?_⟩
      · rw [hrun1]
        omega
      · intro id hid
        rw [hrun2, hgid] at hid
        simp only [Option.toList_some, List.cons_append, List.nil_append,
          List.mem_cons] at hid
        rw [hrun1]
        rcases hid with hid | hid
        · subst hid
          refine ⟨k, s.nextID + 1, rfl, Nat.lt_succ_self _, ?_⟩
          rw [← hnext]
          exact hmono
        · obtain ⟨k', c', hkc, hlt, hle⟩ := hmem id hid
          exact ⟨k', c', hkc, by omega, hle⟩
      · rw [hrun2, hgid]
        simp only [Option.toList_some, List.cons_append, List.nil_append,
          List.nodup_cons]
        refine ⟨?_, hnodup⟩
        intro hin
        obtain ⟨k', c', hkc, hlt, _⟩ := hmem _ hin
        have hc : s.nextID + 1 = c' := renderID_counter_injective hkc
        omega

/-- C10: every generated record ID embeds the shared `nextID` counter
(assets as `A%03d`, maintenance as `M%03d`, audit as `AU%03d`), the
counter grows by exactly one on every ID-generating create, and any two
IDs generated after `NewMemoryStore` are pairwise distinct, within and
across the three record kinds. -/
theorem generated_ids_distinct (now : Nat) (ops : List StoreOp)
    (s : MemoryStore) (op : StoreOp) :
    (opGeneratesID op = true →
      (applyOp s op).1.nextID = s.nextID + 1 ∧
      ∃ k, (applyOp s op).2 = some (renderID k (s.nextID + 1))) ∧
    (∀ id ∈ (runOps (NewMemoryStore now) ops).2, ∃ k c, id = renderID k c) ∧
    (runOps (NewMemoryStore now) ops).2.Nodup := by
  refine ⟨?_, ?_, (runOps_ids ops (NewMemoryStore now)).2.2⟩
  · intro hgen
    cases op with
    | createAssetOp a nw =>
        have h : a.id = "" := by simpa [opGeneratesID] using hgen
        exact ⟨by simp [applyOp, MemoryStore.CreateAsset, h],
          ⟨IDKind.assetKind,
            by simp [applyOp, MemoryStore.CreateAsset, h, renderID, kindTag]⟩⟩
    | updateAssetOp a nw => simp [opGeneratesID] at hgen
    | deleteAssetOp i => simp [opGeneratesID] at hgen
    | createMaintenanceOp r nw =>
        exact ⟨rfl, ⟨IDKind.maintKind,
          by simp [applyOp, MemoryStore.CreateMaintenance, renderID, kindTag]⟩⟩
    | createAuditEntryOp e nw =>
        exact ⟨rfl, ⟨IDKind.auditKind,
          by simp [applyOp, MemoryStore.CreateAuditEntry, renderID, kindTag]⟩⟩
  · intro id hid
    obtain ⟨k, c, hkc, -, -⟩ := (runOps_ids ops (NewMemoryStore now)).2.1 id hid
    exact ⟨k, c, hkc⟩

/-- Witness for C10: a maintenance create on the seeded store bumps the
counter from 100 to 101 and generates an ID; a two-create trace yields
distinct IDs. -/
theorem generated_ids_distinct_witness :
    opGeneratesID (StoreOp.createMaintenanceOp blankMaintenanceRecord 0) = true ∧
    ((applyOp (NewMemoryStore 0)
        (StoreOp.createMaintenanceOp blankMaintenanceRecord 0)).1.nextID =
      (NewMemoryStore 0).nextID + 1 ∧
      ∃ k, (applyOp (NewMemoryStore 0)
          (StoreOp.createMaintenanceOp blankMaintenanceRecord 0)).2 =
        some (renderID k ((NewMemoryStore 0).nextID + 1))) ∧
    (runOps (NewMemoryStore 0)
      [StoreOp.createMaintenanceOp blankMaintenanceRecord 0,
       StoreOp.createAuditEntryOp blankAuditEntry 0]).2.Nodup := by
  have h := generated_ids_distinct 0
    [StoreOp.createMaintenanceOp blankMaintenanceRecord 0,
     StoreOp.createAuditEntryOp blankAuditEntry 0]
    (NewMemoryStore 0) (StoreOp.createMaintenanceOp blankMaintenanceRecord 0)
  exact ⟨rfl, h.1 rfl, h.2.2⟩
